import Mathlib

/-!
Shallow embedding of `exam_generator.py`.

Randomness is modelled by oracle parameters: `random.shuffle` of
`list(range(n))` becomes an explicit permutation argument (assumed, where a
claim needs it, to be a permutation of `List.range n`), and `random.sample`
becomes an explicit list of chosen indices (assumed pairwise distinct and in
range, which `random.sample` guarantees).  Stateful methods are embedded as
state-passing functions returning the updated object.  Python exceptions are
embedded as `Except` values; the error taxonomy of the specification
(DataFormatError / CapacityError / BankNotFoundError) names the three kinds
of failure sites present in the code.
-/

namespace ExamGen

/-- The runtime shape of `Question.correct_answers`: the Python code stores
either a single string or a list of strings and dispatches on
`isinstance(self.correct_answers, list)`. -/
inductive CorrectAnswers where
  | single (s : String)
  | multi (l : List String)
deriving DecidableEq, Repr

/-- `Question` (`exam_generator.py` lines 8-16): per-question data plus the
lazily-set shuffle cache `_shuffled_indices` (`None` until first shuffle). -/
structure Question where
  text : String
  points : Nat
  type : String
  choices : List String
  correct_answers : CorrectAnswers
  id : String
  shuffled_indices : Option (List Nat)
deriving DecidableEq, Repr

/-- A question value used only as the out-of-range default for list indexing
that the Python code cannot reach. -/
def defaultQuestion : Question :=
  ⟨"", 1, "", [], CorrectAnswers.single "", "", none⟩

/-- `Question.shuffle_choices` (lines 18-22): stores a fresh random
permutation of `range(len(choices))` - modelled by the oracle argument
`perm` - unconditionally overwriting any previous value. -/
def shuffle_choices (q : Question) (perm : List Nat) : Question :=
  { q with shuffled_indices := some perm }

/-- `Question.get_shuffled_choices` (lines 24-39): shuffles on first call,
then reorders the choices by the cached index list; for a list-valued
`correct_answers` it returns the shuffled choices that occur in that list
(in shuffled order), otherwise it returns `correct_answers` unchanged. -/
def get_shuffled_choices (q : Question) (perm : List Nat) :
    Question × List String × CorrectAnswers :=
  let q1 :=
    match q.shuffled_indices with
    | none => shuffle_choices q perm
    | some _ => q
  let idxs := q1.shuffled_indices.getD []
  let shuffled_choices := idxs.map (fun i => q1.choices.getD i "")
  match q1.correct_answers with
  | CorrectAnswers.multi ca =>
      (q1, shuffled_choices, CorrectAnswers.multi
        (shuffled_choices.filter (fun c => ca.contains c)))
  | CorrectAnswers.single s =>
      (q1, shuffled_choices, CorrectAnswers.single s)

/-- The body of the rendering loop of `Question.to_latex` (lines 52-64): one
output line per choice, marked `\correctchoice` or `\choice`. -/
def render_choice (correct : CorrectAnswers) (choice : String) : String :=
  match correct with
  | CorrectAnswers.multi ca =>
      if ca.contains choice then "\\correctchoice " ++ choice ++ "\n"
      else "\\choice " ++ choice ++ "\n"
  | CorrectAnswers.single s =>
      if choice == s then "\\correctchoice " ++ choice ++ "\n"
      else "\\choice " ++ choice ++ "\n"

/-- `Question.to_latex` (lines 41-67): header with points and text, one line
per (possibly shuffled) choice, closing marker.  Returns the updated
question because shuffling mutates the instance. -/
def to_latex (q : Question) (perm : List Nat) (shuffle : Bool) :
    Question × String :=
  let r :=
    if shuffle then get_shuffled_choices q perm
    else (q, q.choices, q.correct_answers)
  (r.1,
    "\\question[" ++ toString q.points ++ "] " ++ q.text ++ "\n"
      ++ "\\begin\x7bchoices\x7d\n"
      ++ String.join ((r.2.1).map (render_choice r.2.2))
      ++ "\\end\x7bchoices\x7d\n")

/-- A concrete two-choice question used by several witnesses below. -/
def qAB : Question :=
  ⟨"pick one", 1, "multiple_choice", ["A", "B"], CorrectAnswers.single "B", "", none⟩

/-- A concrete multi-selection question with a duplicated choice string. -/
def qMulti : Question :=
  ⟨"select all", 2, "multiple_selection", ["A", "B", "A", "C"],
    CorrectAnswers.multi ["A", "C"], "", none⟩

/-- The end-to-end example question of the specification: choices A, B, C
with correct answer B. -/
def qABC : Question :=
  ⟨"which?", 1, "multiple_choice", ["A", "B", "C"],
    CorrectAnswers.single "B", "", none⟩

/-- A question whose type tag says single-choice but whose correct-answer
value is a list. -/
def qMislabeled : Question :=
  ⟨"odd one", 1, "multiple_choice", ["A", "B"],
    CorrectAnswers.multi ["A"], "", none⟩

/-- One observable call on the shuffle state of a `Question`: a direct
`shuffle_choices` call, or a `get_shuffled_choices` call; each carries the
fresh random permutation the process-wide generator would supply. -/
inductive ShuffleCall where
  | shuffleDirect (perm : List Nat)
  | getShuffled (perm : List Nat)
deriving DecidableEq, Repr

/-- Runs a sequence of shuffle-state calls on a question, threading the
question state through the calls. -/
def run_calls (q : Question) : List ShuffleCall → Question
  | [] => q
  | ShuffleCall.shuffleDirect p :: rest => run_calls (shuffle_choices q p) rest
  | ShuffleCall.getShuffled p :: rest =>
      run_calls (get_shuffled_choices q p).1 rest

/-- Whether a shuffle-state call is a `get_shuffled_choices` call. -/
def ShuffleCall.isGet : ShuffleCall → Bool
  | ShuffleCall.getShuffled _ => true
  | ShuffleCall.shuffleDirect _ => false

/-- A concrete question already in the SHUFFLED state. -/
def qShuffled : Question :=
  ⟨"done", 1, "multiple_choice", ["A", "B"],
    CorrectAnswers.single "A", "", some [0, 1]⟩

/-- The error taxonomy of the specification.  The Python code raises plain
exceptions; each constructor corresponds to one family of raise sites:
`capacity` to the `ValueError` of `QuestionBank.sample_questions` (line 80),
`bankNotFound` to the `ValueError` of `ExamGenerator.generate_exam` (line
100), and `dataFormat` to the uncaught `KeyError` / `yaml.YAMLError` /
`OSError` failures of bank loading (lines 70-75 and 9-16). -/
inductive ExamError where
  | dataFormat (msg : String)
  | capacity (msg : String)
  | bankNotFound (msg : String)
deriving DecidableEq, Repr

/-- `QuestionBank` (lines 69-81): a named list of questions. -/
structure QuestionBank where
  name : String
  questions : List Question
deriving DecidableEq, Repr

/-- `QuestionBank.sample_questions` (lines 77-81): raises when more questions
are requested than the bank holds, otherwise returns
`random.sample(self.questions, n)` - modelled by the oracle `sel`, the list
of positions the sampler picks (`random.sample` guarantees `sel` has length
`n`, is duplicate-free and in range, which the claims assume as
hypotheses).  The method reads but never writes the bank, so the embedded
state component is returned unchanged. -/
def sample_questions (bank : QuestionBank) (n : Nat) (sel : List Nat) :
    QuestionBank × Except ExamError (List Question) :=
  if n > bank.questions.length then
    (bank, Except.error (ExamError.capacity
      ("Requested " ++ toString n ++ " questions but bank only has "
        ++ toString bank.questions.length)))
  else
    (bank, Except.ok (sel.map (fun i => bank.questions.getD i defaultQuestion)))

/-- A concrete two-question bank used by witnesses. -/
def bank2 : QuestionBank :=
  ⟨"midterm", [qAB, qABC]⟩

/-- Parsed structured data as produced by `yaml.safe_load`. -/
inductive Yaml where
  | str (s : String)
  | nat (n : Nat)
  | bool (b : Bool)
  | null
  | list (items : List Yaml)
  | map (entries : List (String × Yaml))

/-- Python `data[key]` on parsed data: `some` value when `data` is a mapping
containing `key`; `none` models the `KeyError` of a missing key and the
`TypeError` of subscripting a non-mapping. -/
def yamlGet (y : Yaml) (k : String) : Option Yaml :=
  match y with
  | Yaml.map entries => entries.lookup k
  | _ => none

/-- Python `data.get(key, default)`. -/
def yamlGetD (y : Yaml) (k : String) (d : Yaml) : Yaml :=
  (yamlGet y k).getD d

/-- A required field: `some` of its value, or the load-time error for its
absence. -/
def requireField (y : Yaml) (k : String) : Except String Yaml :=
  match yamlGet y k with
  | some v => Except.ok v
  | none => Except.error ("missing required field " ++ k)

/-- Extracts a string.  (The typed Lean model additionally insists the stored
value is a string, which the target data format requires.) -/
def expectString (y : Yaml) : Except String String :=
  match y with
  | Yaml.str s => Except.ok s
  | _ => Except.error "expected a string"

/-- Extracts an integer point value. -/
def expectNat (y : Yaml) : Except String Nat :=
  match y with
  | Yaml.nat n => Except.ok n
  | _ => Except.error "expected an integer"

/-- Extracts a list of strings. -/
def strListOfYaml : List Yaml → Except String (List String)
  | [] => Except.ok []
  | y :: rest =>
    match y with
    | Yaml.str s =>
        match strListOfYaml rest with
        | Except.ok l => Except.ok (s :: l)
        | Except.error e => Except.error e
    | _ => Except.error "expected a string"

/-- Extracts `correct_answers`: a single string or a list of strings, exactly
the two shapes whose downstream handling the code defines. -/
def expectAnswers (y : Yaml) : Except String CorrectAnswers :=
  match y with
  | Yaml.str s => Except.ok (CorrectAnswers.single s)
  | Yaml.list items =>
      match strListOfYaml items with
      | Except.ok l => Except.ok (CorrectAnswers.multi l)
      | Except.error e => Except.error e
  | _ => Except.error "expected a string or a list of strings"

/-- Extracts the choices list. -/
def expectChoices (y : Yaml) : Except String (List String) :=
  match y with
  | Yaml.list items => strListOfYaml items
  | _ => Except.error "expected a list of strings"

/-- `Question.__init__` (lines 9-16): reads the required fields `text`,
`type`, `choices`, `correct_answers` (a missing one raises), the optional
`points` (default 1) and `id` (default empty), in source order, and starts
with an unset shuffle cache. -/
def questionOfYaml (data : Yaml) : Except String Question :=
  match requireField data "text" with
  | Except.error e => Except.error e
  | Except.ok tv =>
    match expectString tv with
    | Except.error e => Except.error e
    | Except.ok text =>
      match expectNat (yamlGetD data "points" (Yaml.nat 1)) with
      | Except.error e => Except.error e
      | Except.ok points =>
        match requireField data "type" with
        | Except.error e => Except.error e
        | Except.ok tyv =>
          match expectString tyv with
          | Except.error e => Except.error e
          | Except.ok ty =>
            match requireField data "choices" with
            | Except.error e => Except.error e
            | Except.ok cv =>
              match expectChoices cv with
              | Except.error e => Except.error e
              | Except.ok choices =>
                match requireField data "correct_answers" with
                | Except.error e => Except.error e
                | Except.ok av =>
                  match expectAnswers av with
                  | Except.error e => Except.error e
                  | Except.ok answers =>
                    match expectString (yamlGetD data "id" (Yaml.str "")) with
                    | Except.error e => Except.error e
                    | Except.ok idv =>
                        Except.ok ⟨text, points, ty, choices, answers, idv, none⟩

/-- The list comprehension building `Question` objects from `data[questions]`
(line 75): questions are built in file order, the first failure aborting
the load. -/
def questionsOfYaml : List Yaml → Except String (List Question)
  | [] => Except.ok []
  | q :: rest =>
    match questionOfYaml q with
    | Except.error e => Except.error e
    | Except.ok qq =>
      match questionsOfYaml rest with
      | Except.error e => Except.error e
      | Except.ok more => Except.ok (qq :: more)

/-- `QuestionBank.__init__` on already-parsed data (lines 74-75): reads the
required `name` and the required `questions` list and builds the
questions. -/
def bankOfYaml (data : Yaml) : Except String QuestionBank :=
  match requireField data "name" with
  | Except.error e => Except.error e
  | Except.ok nv =>
    match expectString nv with
    | Except.error e => Except.error e
    | Except.ok name =>
      match requireField data "questions" with
      | Except.error e => Except.error e
      | Except.ok qv =>
        match qv with
        | Yaml.list ql =>
            match questionsOfYaml ql with
            | Except.error e => Except.error e
            | Except.ok qs => Except.ok ⟨name, qs⟩
        | _ => Except.error "questions is not a list"

/-- The outcome of opening and parsing one bank file: the file may be
unopenable (`OSError`), unparsable (`yaml.YAMLError`), or parsed data. -/
inductive FileRead where
  | unopenable
  | unparsable
  | parsed (y : Yaml)

/-- `QuestionBank.__init__` (lines 70-75), from the file upward: every
load-time failure - unopenable file, unparsable file, or malformed parsed
data - is a DataFormatError in the taxonomy of the specification. -/
def questionBankOfFile (fr : FileRead) : Except ExamError QuestionBank :=
  match fr with
  | FileRead.unopenable => Except.error (ExamError.dataFormat "cannot open bank file")
  | FileRead.unparsable => Except.error (ExamError.dataFormat "cannot parse bank file")
  | FileRead.parsed y =>
      match bankOfYaml y with
      | Except.error m => Except.error (ExamError.dataFormat m)
      | Except.ok b => Except.ok b

/-- A per-question record lacking one of the four required fields. -/
def questionFieldMissing (q : Yaml) : Bool :=
  (yamlGet q "text").isNone || (yamlGet q "type").isNone
    || (yamlGet q "choices").isNone || (yamlGet q "correct_answers").isNone

/-- Bank data lacking a required field: the bank name, the question list, or
a required field of some question record. -/
def bankFieldMissing (y : Yaml) : Bool :=
  (yamlGet y "name").isNone || (yamlGet y "questions").isNone
    || (match yamlGet y "questions" with
        | some (Yaml.list qs) => qs.any questionFieldMissing
        | _ => false)

/-- Parsed bank data carrying a name but no `questions` key. -/
def yNoQuestions : Yaml :=
  Yaml.map [("name", Yaml.str "midterm")]

/-- Python `str.replace` on character lists: replaces every non-overlapping
occurrence of `pat`, scanning left to right.  Structural recursion on a
fuel argument (instantiated with the string length, an upper bound on the
number of steps); an empty pattern leaves the string unchanged (the program
only ever replaces the non-empty literal `%%VERSION%%`). -/
def pyReplaceAux (pat rep : List Char) : Nat → List Char → List Char
  | _, [] => []
  | 0, s => s
  | fuel + 1, c :: rest =>
      if pat.isPrefixOf (c :: rest) && !pat.isEmpty then
        rep ++ pyReplaceAux pat rep fuel ((c :: rest).drop pat.length)
      else
        c :: pyReplaceAux pat rep fuel rest

/-- Python `s.replace(pat, rep)`. -/
def pyReplaceStr (s pat rep : String) : String :=
  ⟨pyReplaceAux pat.data rep.data s.data.length s.data⟩

/-- The default LaTeX preamble of `_generate_preamble` (lines 126-140). -/
def default_preamble (version : Nat) : String :=
  "\\documentclass[addpoints,12pt,answers]\x7bexam\x7d\n"
    ++ "\\usepackage\x7bttfamily\x7d\n"
    ++ "\\usepackage\x7btextcomp\x7d\n"
    ++ "\\pagestyle\x7bheadandfoot\x7d\n"
    ++ "\\runningheader\x7bCS Course\x7d\x7bExam Version "
    ++ toString version ++ "\x7d\x7b\\today\x7d\n"
    ++ "\\runningfooter\x7bPage \\thepage\\ of \\numpages\x7d\x7b\x7d\x7b\x7d\n"
    ++ "\n"
    ++ "\\begin\x7bdocument\x7d\n"
    ++ "\\begin\x7bcenter\x7d\n"
    ++ "\\textbf\x7bExam\x7d\\\\\n"
    ++ "Version " ++ toString version ++ "\\\\\n"
    ++ "\\today\n"
    ++ "\\end\x7bcenter\x7d\n"
    ++ "\n"

/-- `ExamGenerator` (lines 83-86): the bank mapping (a dict keyed by bank
name, modelled as an association list in insertion order) and the optional
custom preamble path. -/
structure ExamGenerator where
  banks : List (String × QuestionBank)
  preamble_file : Option String

/-- `ExamGenerator._generate_preamble` (lines 113-140): with a configured
preamble file, read it - `readFile` is the file-system oracle, `none`
modelling `FileNotFoundError` - and substitute every occurrence of the
literal `%%VERSION%%` placeholder with the version number; on a missing
file (after a warning) or no configured file, use the default preamble. -/
def generate_preamble (g : ExamGenerator) (readFile : String → Option String)
    (version : Nat) : String :=
  match g.preamble_file with
  | some pf =>
      match readFile pf with
      | some preamble => pyReplaceStr preamble "%%VERSION%%" (toString version)
      | none => default_preamble version
  | none => default_preamble version

/-- The sampling loop of `generate_exam` (lines 97-102): walk the selections
in insertion order; a name absent from the bank mapping raises, and
`sample_questions` failures propagate; successful samples accumulate.
`sels i` is the sampling oracle for the i-th selection entry. -/
def sample_all (banks : List (String × QuestionBank)) :
    List (String × Nat) → (Nat → List Nat) → Except ExamError (List Question)
  | [], _ => Except.ok []
  | (bank_name, num_questions) :: rest, sels =>
      match List.lookup bank_name banks with
      | none => Except.error (ExamError.bankNotFound
          ("Question bank \x27" ++ bank_name ++ "\x27 not found"))
      | some bank =>
          match (sample_questions bank num_questions (sels 0)).2 with
          | Except.error e => Except.error e
          | Except.ok qs =>
              match sample_all banks rest (fun i => sels (i + 1)) with
              | Except.error e => Except.error e
              | Except.ok more => Except.ok (qs ++ more)

/-- The rendering loop of `generate_exam` (lines 106-107): the LaTeX of each
sampled question (shuffled) followed by a blank line; `perms i` is the
shuffle oracle for the i-th accumulated question. -/
def renderQuestions : List Question → (Nat → List Nat) → String
  | [], _ => ""
  | q :: rest, perms =>
      (to_latex q (perms 0) true).2 ++ "\n"
        ++ renderQuestions rest (fun i => perms (i + 1))

/-- `ExamGenerator.generate_exam` (lines 92-111): preamble, then sampled
questions from each selected bank, then the questions section and the
document-closing marker. -/
def generate_exam (g : ExamGenerator) (bank_selections : List (String × Nat))
    (version : Nat) (readFile : String → Option String)
    (sels perms : Nat → List Nat) : Except ExamError String :=
  let latex := generate_preamble g readFile version
  match sample_all g.banks bank_selections sels with
  | Except.error e => Except.error e
  | Except.ok all_questions =>
      Except.ok (latex
        ++ "\\begin\x7bquestions\x7d\n"
        ++ renderQuestions all_questions perms
        ++ "\\end\x7bquestions\x7d\n"
        ++ "\\end\x7bdocument\x7d")

/-- A generator configured with a custom preamble file. -/
def gPre : ExamGenerator := ⟨[], some "preamble.tex"⟩

/-- A file oracle serving a template that contains the version placeholder
twice. -/
def readPre : String → Option String :=
  fun _ => some "Exam %%VERSION%% of term\n%%VERSION%% end"

/-- A one-question bank used to exercise `generate_exam` failures. -/
def bank1 : QuestionBank := ⟨"b", [qAB]⟩

/-- A generator with the single bank "b" loaded. -/
def genC5 : ExamGenerator := ⟨[("b", bank1)], none⟩

/-- Whether a `generate_exam` outcome is a BankNotFoundError. -/
def isBankNotFound : Except ExamError String → Bool
  | Except.error (ExamError.bankNotFound _) => true
  | _ => false

/-- Indexing a list at every position of `List.range` reproduces the list. -/
lemma range_map_getD {α : Type} (l : List α) (d : α) :
    (List.range l.length).map (fun i => l.getD i d) = l := by
  induction l with
  | nil => simp
  | cons a t ih =>
      rw [List.length_cons, List.range_succ_eq_map, List.map_cons, List.map_map]
      have hshift : ((fun i => (a :: t).getD i d) ∘ Nat.succ) = fun i => t.getD i d := by
        funext i
        simp [List.getD]
      rw [hshift, ih]
      simp [List.getD]

/-- Reordering a list by a permutation of its index range yields a
permutation of the list. -/
lemma perm_map_getD {perm : List Nat} {α : Type} {l : List α} (d : α)
    (h : perm.Perm (List.range l.length)) :
    (perm.map (fun i => l.getD i d)).Perm l := by
  have h2 := h.map (fun i => l.getD i d)
  rwa [range_map_getD l d] at h2

/-- Unfolding `get_shuffled_choices` on a never-shuffled question. -/
lemma get_shuffled_choices_fresh (q : Question) (perm : List Nat)
    (h : q.shuffled_indices = none) :
    get_shuffled_choices q perm =
      ({ q with shuffled_indices := some perm },
        perm.map (fun i => q.choices.getD i ""),
        match q.correct_answers with
        | CorrectAnswers.multi ca =>
            CorrectAnswers.multi
              ((perm.map (fun i => q.choices.getD i "")).filter
                (fun c => ca.contains c))
        | CorrectAnswers.single s => CorrectAnswers.single s) := by
  cases hca : q.correct_answers <;>
    simp [get_shuffled_choices, shuffle_choices, h, hca]

/-- Unfolding `get_shuffled_choices` on an already-shuffled question: the
cached index list is reused and the question is unchanged. -/
lemma get_shuffled_choices_cached (q : Question) (perm idxs : List Nat)
    (h : q.shuffled_indices = some idxs) :
    get_shuffled_choices q perm =
      (q,
        idxs.map (fun i => q.choices.getD i ""),
        match q.correct_answers with
        | CorrectAnswers.multi ca =>
            CorrectAnswers.multi
              ((idxs.map (fun i => q.choices.getD i "")).filter
                (fun c => ca.contains c))
        | CorrectAnswers.single s => CorrectAnswers.single s) := by
  cases hca : q.correct_answers <;>
    simp [get_shuffled_choices, h, hca]

/-- In a duplicate-free list containing `a`, exactly one element compares
equal to `a`. -/
lemma filter_beq_singleton {α : Type} [DecidableEq α] {l : List α} {a : α}
    (hnd : l.Nodup) (ha : a ∈ l) : l.filter (fun c => c == a) = [a] := by
  induction l with
  | nil => cases ha
  | cons x t ih =>
      rcases List.nodup_cons.mp hnd with ⟨hx, hndt⟩
      rcases List.mem_cons.mp ha with hax | hat
      · cases hax
        have ht : t.filter (fun c => c == a) = [] := by
          rw [List.filter_eq_nil_iff]
          intro b hb hba
          rw [beq_iff_eq] at hba
          exact hx (hba ▸ hb)
        simp [List.filter_cons, ht]
      · have hxa : (x == a) = false := by
          simp only [beq_eq_false_iff_ne]
          intro hxa
          exact hx (hxa ▸ hat)
        simp [List.filter_cons, hxa, ih hndt hat]

/-- `get_shuffled_choices` never changes an already-set shuffle cache, so a
run of such calls leaves the question untouched. -/
lemma run_calls_gets_cached (q : Question) (p : List Nat)
    (calls : List ShuffleCall)
    (h : q.shuffled_indices = some p)
    (hcalls : calls.all ShuffleCall.isGet = true) :
    run_calls q calls = q := by
  induction calls with
  | nil => rfl
  | cons c rest ih =>
      rw [List.all_cons, Bool.and_eq_true] at hcalls
      cases c with
      | shuffleDirect pp => simp [ShuffleCall.isGet] at hcalls
      | getShuffled pp =>
          have hstep : (get_shuffled_choices q pp).1 = q := by
            rw [get_shuffled_choices_cached q pp p h]
          rw [run_calls, hstep]
          exact ih hcalls.2

/-- A successfully required field was present. -/
lemma requireField_ok {y : Yaml} {k : String} {v : Yaml}
    (h : requireField y k = Except.ok v) : yamlGet y k = some v := by
  cases hk : yamlGet y k with
  | none => simp [requireField, hk] at h
  | some w =>
      simp only [requireField, hk, Except.ok.injEq] at h
      rw [h]

/-- A question record that constructs successfully has all four required
fields. -/
lemma questionOfYaml_ok_fields {q : Yaml} {qq : Question}
    (h : questionOfYaml q = Except.ok qq) : questionFieldMissing q = false := by
  unfold questionOfYaml at h
  cases h1 : requireField q "text" with
  | error e => simp [h1] at h
  | ok tv =>
  simp only [h1] at h
  cases h2 : expectString tv with
  | error e => simp [h2] at h
  | ok text =>
  simp only [h2] at h
  cases h3 : expectNat (yamlGetD q "points" (Yaml.nat 1)) with
  | error e => simp [h3] at h
  | ok pts =>
  simp only [h3] at h
  cases h4 : requireField q "type" with
  | error e => simp [h4] at h
  | ok tyv =>
  simp only [h4] at h
  cases h5 : expectString tyv with
  | error e => simp [h5] at h
  | ok ty =>
  simp only [h5] at h
  cases h6 : requireField q "choices" with
  | error e => simp [h6] at h
  | ok cv =>
  simp only [h6] at h
  cases h7 : expectChoices cv with
  | error e => simp [h7] at h
  | ok cs =>
  simp only [h7] at h
  cases h8 : requireField q "correct_answers" with
  | error e => simp [h8] at h
  | ok av =>
  unfold questionFieldMissing
  rw [requireField_ok h1, requireField_ok h4, requireField_ok h6,
    requireField_ok h8]
  rfl

/-- A record with a missing required field fails to construct. -/
lemma questionOfYaml_error_of_missing {q : Yaml}
    (hm : questionFieldMissing q = true) :
    ∃ e, questionOfYaml q = Except.error e := by
  cases hq : questionOfYaml q with
  | error e => exact ⟨e, rfl⟩
  | ok qq => exact absurd (questionOfYaml_ok_fields hq) (by simp [hm])

/-- If the whole question list builds, each record builds. -/
lemma questionsOfYaml_ok_all {l : List Yaml} {qs : List Question}
    (h : questionsOfYaml l = Except.ok qs) :
    ∀ q ∈ l, ∃ qq, questionOfYaml q = Except.ok qq := by
  induction l generalizing qs with
  | nil => intro q hq; cases hq
  | cons a rest ih =>
      intro q hq
      unfold questionsOfYaml at h
      cases h1 : questionOfYaml a with
      | error e => rw [h1] at h; exact absurd h (by simp)
      | ok qa =>
        rw [h1] at h
        cases h2 : questionsOfYaml rest with
        | error e => rw [h2] at h; exact absurd h (by simp)
        | ok more =>
          rcases List.mem_cons.mp hq with rfl | hq2
          · exact ⟨qa, h1⟩
          · exact ih h2 q hq2

/-- A bank that loads successfully from parsed data has no missing required
field. -/
lemma bankOfYaml_ok_not_missing {y : Yaml} {b : QuestionBank}
    (h : bankOfYaml y = Except.ok b) : bankFieldMissing y = false := by
  unfold bankOfYaml at h
  cases h1 : requireField y "name" with
  | error e => simp [h1] at h
  | ok nv =>
  simp only [h1] at h
  cases h2 : expectString nv with
  | error e => simp [h2] at h
  | ok nm =>
  simp only [h2] at h
  cases h3 : requireField y "questions" with
  | error e => simp [h3] at h
  | ok qv =>
  simp only [h3] at h
  cases qv with
  | str s => simp at h
  | nat n => simp at h
  | bool bb => simp at h
  | null => simp at h
  | map entries => simp at h
  | list ql =>
      cases h4 : questionsOfYaml ql with
      | error e => simp [h4] at h
      | ok qs =>
          unfold bankFieldMissing
          rw [requireField_ok h1, requireField_ok h3]
          simp only [Option.isNone_some, Bool.false_or]
          rw [List.any_eq_false]
          intro q hqmem
          rcases questionsOfYaml_ok_all h4 q hqmem with ⟨qq, hok⟩
          simp [questionOfYaml_ok_fields hok]

/-- A sampling error inside the selections loop aborts `generate_exam` with
that same error. -/
lemma generate_exam_of_sample_error (g : ExamGenerator)
    (selections : List (String × Nat)) (version : Nat)
    (readFile : String → Option String) (sels perms : Nat → List Nat)
    (e : ExamError)
    (h : sample_all g.banks selections sels = Except.error e) :
    generate_exam g selections version readFile sels perms =
      Except.error e := by
  simp [generate_exam, h]

/-- If every selection entry before the first offender resolves within
capacity, an absent bank name at the offender position produces the
BankNotFoundError of line 100. -/
lemma sample_all_absent (banks : List (String × QuestionBank))
    (pre rest : List (String × Nat)) (nm : String) (cnt : Nat)
    (sels : Nat → List Nat)
    (hpre : ∀ p ∈ pre, ∃ b, List.lookup p.1 banks = some b ∧
      p.2 ≤ b.questions.length)
    (hnone : List.lookup nm banks = none) :
    sample_all banks (pre ++ (nm, cnt) :: rest) sels =
      Except.error (ExamError.bankNotFound
        ("Question bank \x27" ++ nm ++ "\x27 not found")) := by
  revert hpre
  induction pre generalizing sels with
  | nil =>
      intro hpre
      simp [sample_all, hnone]
  | cons p t ih =>
      intro hpre
      rcases hpre p (List.mem_cons_self p t) with ⟨b, hb, hle⟩
      obtain ⟨pname, pcnt⟩ := p
      rw [List.cons_append]
      simp only [sample_all, hb, sample_questions,
        if_neg (not_lt.mpr hle)]
      rw [ih (fun i => sels (i + 1))
        (fun x hx => hpre x (List.mem_cons_of_mem _ hx))]

/-- If every selection entry before the first offender resolves within
capacity, an over-capacity count at the offender position produces the
CapacityError of `sample_questions`, unchanged. -/
lemma sample_all_capacity (banks : List (String × QuestionBank))
    (pre rest : List (String × Nat)) (nm : String) (cnt : Nat)
    (sels : Nat → List Nat) (b : QuestionBank)
    (hpre : ∀ p ∈ pre, ∃ bb, List.lookup p.1 banks = some bb ∧
      p.2 ≤ bb.questions.length)
    (hsome : List.lookup nm banks = some b)
    (hgt : b.questions.length < cnt) :
    sample_all banks (pre ++ (nm, cnt) :: rest) sels =
      Except.error (ExamError.capacity ("Requested " ++ toString cnt
        ++ " questions but bank only has " ++ toString b.questions.length)) := by
  revert hpre
  induction pre generalizing sels with
  | nil =>
      intro hpre
      simp [sample_all, hsome, sample_questions, hgt]
  | cons p t ih =>
      intro hpre
      rcases hpre p (List.mem_cons_self p t) with ⟨bb, hb, hle⟩
      obtain ⟨pname, pcnt⟩ := p
      rw [List.cons_append]
      simp only [sample_all, hb, sample_questions,
        if_neg (not_lt.mpr hle)]
      rw [ih (fun i => sels (i + 1))
        (fun x hx => hpre x (List.mem_cons_of_mem _ hx))]

/-- Claim C1: for every Question with a non-empty choices list (whose shuffle
cache is either unset or holds a permutation of the index range, the only
states the program produces), `get_shuffled_choices` returns a choices
sequence that is a permutation (same multiset) of the original choices, and
a repeated call on the resulting instance returns a result identical to the
result of the first call (so, by iterating, every later call does). -/
theorem c1_shuffle_perm_and_stable (q : Question) (perm perm2 : List Nat)
    (hne : q.choices ≠ [])
    (hperm : perm.Perm (List.range q.choices.length))
    (hstate : q.shuffled_indices = none ∨
      ∃ p, q.shuffled_indices = some p ∧ p.Perm (List.range q.choices.length)) :
    (get_shuffled_choices q perm).2.1.Perm q.choices ∧
    get_shuffled_choices (get_shuffled_choices q perm).1 perm2 =
      get_shuffled_choices q perm := by
  rcases hstate with hfresh | ⟨p, hp, hpperm⟩
  · rw [get_shuffled_choices_fresh q perm hfresh]
    constructor
    · exact perm_map_getD "" hperm
    · rw [get_shuffled_choices_cached _ perm2 perm (by simp)]
  · rw [get_shuffled_choices_cached q perm p hp]
    constructor
    · exact perm_map_getD "" hpperm
    · rw [get_shuffled_choices_cached q perm2 p hp]

/-- Witness for C1 at a concrete fresh question and permutation. -/
theorem c1_witness :
    qAB.choices ≠ [] ∧
    ([1, 0] : List Nat).Perm (List.range qAB.choices.length) ∧
    ((get_shuffled_choices qAB [1, 0]).2.1.Perm qAB.choices ∧
      get_shuffled_choices (get_shuffled_choices qAB [1, 0]).1 [0, 1] =
        get_shuffled_choices qAB [1, 0]) :=
  ⟨by decide, by decide,
    c1_shuffle_perm_and_stable qAB [1, 0] [0, 1] (by decide) (by decide)
      (Or.inl rfl)⟩

/-- Claim C6: for a multi-correct Question, the correct-answer sequence
returned by `get_shuffled_choices` has, as a set, exactly the elements of
the original correct-answer list that occur among the choices; it is a
subsequence of the returned shuffled choices (so its order matches theirs);
and, counting multiplicity, every occurrence of a listed correct value
among the shuffled choices is included. -/
theorem c6_multi_correct (q : Question) (perm : List Nat) (ca : List String)
    (hfresh : q.shuffled_indices = none)
    (hperm : perm.Perm (List.range q.choices.length))
    (hmulti : q.correct_answers = CorrectAnswers.multi ca) :
    ∃ sc, (get_shuffled_choices q perm).2.2 = CorrectAnswers.multi sc ∧
      (∀ c, c ∈ sc ↔ c ∈ ca ∧ c ∈ q.choices) ∧
      sc.Sublist (get_shuffled_choices q perm).2.1 ∧
      (∀ c ∈ ca, sc.count c = (get_shuffled_choices q perm).2.1.count c) := by
  rw [get_shuffled_choices_fresh q perm hfresh, hmulti]
  have hchoice : (perm.map (fun i => q.choices.getD i "")).Perm q.choices :=
    perm_map_getD "" hperm
  refine ⟨_, rfl, ?_, List.filter_sublist _, ?_⟩
  · intro c
    rw [List.mem_filter]
    constructor
    · rintro ⟨hmem, hc⟩
      exact ⟨List.elem_iff.mp hc, hchoice.mem_iff.mp hmem⟩
    · rintro ⟨hca, hmem⟩
      exact ⟨hchoice.mem_iff.mpr hmem, List.elem_iff.mpr hca⟩
  · intro c hc
    exact List.count_filter (List.elem_iff.mpr hc)

/-- Witness for C6 at a concrete multi-selection question whose choices
duplicate a correct value. -/
theorem c6_witness :
    ([3, 2, 1, 0] : List Nat).Perm (List.range qMulti.choices.length) ∧
    (∃ sc, (get_shuffled_choices qMulti [3, 2, 1, 0]).2.2 = CorrectAnswers.multi sc ∧
      (∀ c, c ∈ sc ↔ c ∈ ["A", "C"] ∧ c ∈ qMulti.choices) ∧
      sc.Sublist (get_shuffled_choices qMulti [3, 2, 1, 0]).2.1 ∧
      (∀ c ∈ ["A", "C"],
        sc.count c = (get_shuffled_choices qMulti [3, 2, 1, 0]).2.1.count c)) :=
  ⟨by decide,
    c6_multi_correct qMulti [3, 2, 1, 0] ["A", "C"] rfl (by decide) rfl⟩

/-- Claim C8: for a single-correct Question with pairwise-distinct choices
containing the correct answer, `to_latex` (with or without shuffling)
renders the header, one `render_choice` line per choice in the order used,
and the closing marker; exactly one of those choices compares equal to the
correct answer (so exactly one line is marked `\correctchoice`, and its
text is the correct-answer string), every other line being marked
`\choice`. -/
theorem c8_single_correct_marked_once (q : Question) (perm : List Nat)
    (a : String) (sh : Bool)
    (hsingle : q.correct_answers = CorrectAnswers.single a)
    (hnd : q.choices.Nodup)
    (hmem : a ∈ q.choices)
    (hfresh : q.shuffled_indices = none)
    (hperm : perm.Perm (List.range q.choices.length)) :
    (to_latex q perm sh).2 =
      "\\question[" ++ toString q.points ++ "] " ++ q.text ++ "\n"
        ++ "\\begin\x7bchoices\x7d\n"
        ++ String.join (((if sh then (get_shuffled_choices q perm).2.1
              else q.choices)).map (render_choice (CorrectAnswers.single a)))
        ++ "\\end\x7bchoices\x7d\n" ∧
    (if sh then (get_shuffled_choices q perm).2.1 else q.choices).filter
        (fun c => c == a) = [a] ∧
    (∀ c, render_choice (CorrectAnswers.single a) c =
      if c == a then "\\correctchoice " ++ c ++ "\n"
      else "\\choice " ++ c ++ "\n") := by
  have hshuffled :
      (get_shuffled_choices q perm).2.1.Perm q.choices := by
    rw [get_shuffled_choices_fresh q perm hfresh]
    exact perm_map_getD "" hperm
  refine ⟨?_, ?_, fun c => rfl⟩
  · cases sh
    · simp [to_latex, hsingle]
    · simp only [to_latex, if_true]
      rw [get_shuffled_choices_fresh q perm hfresh, hsingle]
  · cases sh
    · simpa using filter_beq_singleton hnd hmem
    · simpa using
        filter_beq_singleton (hshuffled.symm.nodup hnd) (hshuffled.mem_iff.mpr hmem)

/-- Witness for C8 at a concrete three-choice question with correct answer
"B", shuffled. -/
theorem c8_witness :
    qABC.correct_answers = CorrectAnswers.single "B" ∧
    qABC.choices.Nodup ∧
    "B" ∈ qABC.choices ∧
    ([2, 0, 1] : List Nat).Perm (List.range qABC.choices.length) ∧
    ((to_latex qABC [2, 0, 1] true).2 =
      "\\question[" ++ toString qABC.points ++ "] " ++ qABC.text ++ "\n"
        ++ "\\begin\x7bchoices\x7d\n"
        ++ String.join (((if true then (get_shuffled_choices qABC [2, 0, 1]).2.1
              else qABC.choices)).map (render_choice (CorrectAnswers.single "B")))
        ++ "\\end\x7bchoices\x7d\n" ∧
    (if true then (get_shuffled_choices qABC [2, 0, 1]).2.1 else qABC.choices).filter
        (fun c => c == "B") = ["B"] ∧
    (∀ c, render_choice (CorrectAnswers.single "B") c =
      if c == "B" then "\\correctchoice " ++ c ++ "\n"
      else "\\choice " ++ c ++ "\n")) :=
  ⟨rfl, by decide, by decide, by decide,
    c8_single_correct_marked_once qABC [2, 0, 1] "B" true rfl (by decide)
      (by decide) rfl (by decide)⟩

/-- Claim C10: `get_shuffled_choices` and `to_latex` are insensitive to the
stored type tag - replacing it by any string changes neither output - and
their single/multi dispatch is determined solely by the shape of
`correct_answers`: a list-valued `correct_answers` (whatever the tag,
including "multiple_choice") gets the filter-based multi-selection
semantics, and a string-valued one is returned unchanged. -/
theorem c10_type_tag_irrelevant (q : Question) (t : String) (perm : List Nat)
    (sh : Bool) :
    ((get_shuffled_choices { q with type := t } perm).2 =
        (get_shuffled_choices q perm).2 ∧
      (to_latex { q with type := t } perm sh).2 = (to_latex q perm sh).2) ∧
    (∀ ca, q.correct_answers = CorrectAnswers.multi ca →
      (get_shuffled_choices q perm).2.2 =
        CorrectAnswers.multi
          ((get_shuffled_choices q perm).2.1.filter (fun c => ca.contains c))) ∧
    (∀ s, q.correct_answers = CorrectAnswers.single s →
      (get_shuffled_choices q perm).2.2 = CorrectAnswers.single s) := by
  refine ⟨⟨?_, ?_⟩, ?_, ?_⟩
  · obtain ⟨tx, pts, ty, cs, ca, idf, si⟩ := q
    cases si <;> cases ca <;> rfl
  · obtain ⟨tx, pts, ty, cs, ca, idf, si⟩ := q
    cases sh <;> cases si <;> cases ca <;> rfl
  · intro ca hca
    cases hsi : q.shuffled_indices with
    | none => rw [get_shuffled_choices_fresh q perm hsi, hca]
    | some idxs => rw [get_shuffled_choices_cached q perm idxs hsi, hca]
  · intro s hs
    cases hsi : q.shuffled_indices with
    | none => rw [get_shuffled_choices_fresh q perm hsi, hs]
    | some idxs => rw [get_shuffled_choices_cached q perm idxs hsi, hs]

/-- Witness for C10 at a question whose tag is "multiple_choice" but whose
correct answers form a list: multi-selection semantics apply. -/
theorem c10_witness :
    qMislabeled.correct_answers = CorrectAnswers.multi ["A"] ∧
    (get_shuffled_choices qMislabeled [1, 0]).2.2 =
      CorrectAnswers.multi
        ((get_shuffled_choices qMislabeled [1, 0]).2.1.filter
          (fun c => (["A"] : List String).contains c)) :=
  ⟨rfl,
    (c10_type_tag_irrelevant qMislabeled "x" [1, 0] true).2.1 ["A"] rfl⟩

/-- Counterexample to C7 as stated: on an instance whose cache is already set
(to the identity permutation of two choices), a later direct
`shuffle_choices` call - one of the calls the claim quantifies over -
replaces the stored permutation, so SHUFFLED is not terminal under
`shuffle_choices`. -/
theorem c7_counterexample :
    qShuffled.shuffled_indices = some [0, 1] ∧
    (run_calls qShuffled [ShuffleCall.shuffleDirect [1, 0]]).shuffled_indices
      = some [1, 0] ∧
    (run_calls qShuffled
        [ShuffleCall.shuffleDirect [1, 0]]).shuffled_indices
      ≠ qShuffled.shuffled_indices := by
  refine ⟨rfl, rfl, by decide⟩

/-- Claim C7 (amended): the UNSHUFFLED to SHUFFLED transition happens on the
first call to `shuffle_choices` or `get_shuffled_choices`, and the stored
permutation survives every later sequence of `get_shuffled_choices` calls
unchanged; the write-once discipline (first shuffle call wins) holds for
call sequences whose later calls are all `get_shuffled_choices` - the only
way `shuffle_choices` is ever invoked inside the program - while a later
direct `shuffle_choices` call overwrites the cache. -/
theorem c7_write_once_via_gets (q : Question) (first : List Nat)
    (calls : List ShuffleCall)
    (hfresh : q.shuffled_indices = none)
    (hcalls : calls.all ShuffleCall.isGet = true) :
    (shuffle_choices q first).shuffled_indices = some first ∧
    (get_shuffled_choices q first).1.shuffled_indices = some first ∧
    run_calls (get_shuffled_choices q first).1 calls =
      (get_shuffled_choices q first).1 ∧
    run_calls (shuffle_choices q first) calls = shuffle_choices q first := by
  have hget : (get_shuffled_choices q first).1.shuffled_indices = some first := by
    rw [get_shuffled_choices_fresh q first hfresh]
  refine ⟨rfl, hget, ?_, ?_⟩
  · exact run_calls_gets_cached _ first calls hget hcalls
  · exact run_calls_gets_cached _ first calls rfl hcalls

/-- Witness for the amended C7 at a concrete fresh question and a pair of
later `get_shuffled_choices` calls. -/
theorem c7_witness :
    qAB.shuffled_indices = none ∧
    ([ShuffleCall.getShuffled [0, 1],
        ShuffleCall.getShuffled [1, 0]].all ShuffleCall.isGet = true) ∧
    ((shuffle_choices qAB [1, 0]).shuffled_indices = some [1, 0] ∧
      (get_shuffled_choices qAB [1, 0]).1.shuffled_indices = some [1, 0] ∧
      run_calls (get_shuffled_choices qAB [1, 0]).1
          [ShuffleCall.getShuffled [0, 1], ShuffleCall.getShuffled [1, 0]] =
        (get_shuffled_choices qAB [1, 0]).1 ∧
      run_calls (shuffle_choices qAB [1, 0])
          [ShuffleCall.getShuffled [0, 1], ShuffleCall.getShuffled [1, 0]] =
        shuffle_choices qAB [1, 0]) :=
  ⟨rfl, by decide,
    c7_write_once_via_gets qAB [1, 0]
      [ShuffleCall.getShuffled [0, 1], ShuffleCall.getShuffled [1, 0]] rfl
      (by decide)⟩

/-- Claim C2: for a bank of size M and any n between 0 and M,
`sample_questions n` succeeds with a sequence of exactly n questions picked
at pairwise-distinct positions of the question list of the bank (so
pairwise-distinct instances; as values they are duplicate-free whenever the
bank entries are); n = 0 yields the empty sequence and no error; and the
bank - in particular its master question list - is returned unchanged. -/
theorem c2_sample_ok (bank : QuestionBank) (n : Nat) (sel : List Nat)
    (hn : n ≤ bank.questions.length)
    (hlen : sel.length = n)
    (hnd : sel.Nodup)
    (hran : ∀ i ∈ sel, i < bank.questions.length) :
    ∃ l, sample_questions bank n sel = (bank, Except.ok l) ∧
      l.length = n ∧
      (∀ x ∈ l, x ∈ bank.questions) ∧
      (∃ idxs : List Nat, idxs.Nodup ∧ (∀ i ∈ idxs, i < bank.questions.length) ∧
        l = idxs.map (fun i => bank.questions.getD i defaultQuestion)) ∧
      (bank.questions.Nodup → l.Nodup) ∧
      (n = 0 → l = []) := by
  have hif : ¬ n > bank.questions.length := not_lt.mpr hn
  refine ⟨sel.map (fun i => bank.questions.getD i defaultQuestion),
    by simp [sample_questions, hif], ?_, ?_, ⟨sel, hnd, hran, rfl⟩, ?_, ?_⟩
  · simp [hlen]
  · intro x hx
    rcases List.mem_map.mp hx with ⟨i, hi, hxi⟩
    rw [← hxi, List.getD_eq_getElem bank.questions defaultQuestion (hran i hi)]
    exact List.getElem_mem (hran i hi)
  · intro hqnd
    refine hnd.map_on ?_
    intro i hi j hj hij
    rw [List.getD_eq_getElem _ _ (hran i hi),
      List.getD_eq_getElem _ _ (hran j hj)] at hij
    exact List.getElem?_inj (hran i hi) hqnd
      (by rw [List.getElem?_eq_getElem (hran i hi),
        List.getElem?_eq_getElem (hran j hj), hij])
  · intro hn0
    subst hn0
    exact List.eq_nil_of_length_eq_zero (by simp [hlen])

/-- Witness for C2 at a concrete bank, sampling one of two questions. -/
theorem c2_witness :
    1 ≤ bank2.questions.length ∧
    ([1] : List Nat).length = 1 ∧
    ([1] : List Nat).Nodup ∧
    (∀ i ∈ ([1] : List Nat), i < bank2.questions.length) ∧
    (∃ l, sample_questions bank2 1 [1] = (bank2, Except.ok l) ∧
      l.length = 1 ∧
      (∀ x ∈ l, x ∈ bank2.questions) ∧
      (∃ idxs : List Nat, idxs.Nodup ∧ (∀ i ∈ idxs, i < bank2.questions.length) ∧
        l = idxs.map (fun i => bank2.questions.getD i defaultQuestion)) ∧
      (bank2.questions.Nodup → l.Nodup) ∧
      (1 = 0 → l = [])) :=
  ⟨by decide, by decide, by decide, by decide,
    c2_sample_ok bank2 1 [1] (by decide) (by decide) (by decide) (by decide)⟩

/-- Claim C3: `sample_questions n` on a bank of size M fails - and fails with
a CapacityError - exactly when n exceeds M: it returns an error for every
n > M and a successful sample for every n between 0 and M. -/
theorem c3_capacity_iff (bank : QuestionBank) (n : Nat) (sel : List Nat) :
    (bank.questions.length < n →
      (sample_questions bank n sel).2 = Except.error (ExamError.capacity
        ("Requested " ++ toString n ++ " questions but bank only has "
          ++ toString bank.questions.length))) ∧
    (n ≤ bank.questions.length →
      ∃ l, (sample_questions bank n sel).2 = Except.ok l) := by
  constructor
  · intro hlt
    simp [sample_questions, hlt]
  · intro hle
    refine ⟨sel.map (fun i => bank.questions.getD i defaultQuestion), ?_⟩
    simp [sample_questions, not_lt.mpr hle]

/-- Witness for C3: requesting three questions from a two-question bank
yields the capacity error, requesting two succeeds. -/
theorem c3_witness :
    (sample_questions bank2 3 []).2 = Except.error (ExamError.capacity
      ("Requested " ++ toString 3 ++ " questions but bank only has "
        ++ toString bank2.questions.length)) ∧
    ∃ l, (sample_questions bank2 2 [0, 1]).2 = Except.ok l :=
  ⟨(c3_capacity_iff bank2 3 []).1 (by decide),
    (c3_capacity_iff bank2 2 [0, 1]).2 (by decide)⟩

/-- Claim C4: loading a QuestionBank from a file fails - with a
DataFormatError, the name the taxonomy gives every load-time failure -
whenever the file cannot be opened, or cannot be parsed as structured data,
or the parsed data lacks a required field: the bank name, the question
list, or a `text`, `type`, `choices` or `correct_answers` entry of some
question record. -/
theorem c4_load_missing_field_errors (fr : FileRead)
    (h : fr = FileRead.unopenable ∨ fr = FileRead.unparsable ∨
      ∃ y, fr = FileRead.parsed y ∧ bankFieldMissing y = true) :
    ∃ m, questionBankOfFile fr = Except.error (ExamError.dataFormat m) := by
  rcases h with rfl | rfl | ⟨y, rfl, hy⟩
  · exact ⟨"cannot open bank file", rfl⟩
  · exact ⟨"cannot parse bank file", rfl⟩
  · cases hb : bankOfYaml y with
    | error m => exact ⟨m, by simp [questionBankOfFile, hb]⟩
    | ok b => exact absurd (bankOfYaml_ok_not_missing hb) (by simp [hy])

/-- Witness for C4: a bank file whose parsed data misses the `questions` key
raises DataFormatError. -/
theorem c4_witness :
    bankFieldMissing yNoQuestions = true ∧
    ∃ m, questionBankOfFile (FileRead.parsed yNoQuestions) =
      Except.error (ExamError.dataFormat m) :=
  ⟨rfl,
    c4_load_missing_field_errors (FileRead.parsed yNoQuestions)
      (Or.inr (Or.inr ⟨yNoQuestions, rfl, rfl⟩))⟩

/-- Claim C9: with a configured and readable custom preamble file, preamble
generation returns the full file text with every occurrence of the literal
`%%VERSION%%` placeholder replaced by the version number rendered as a
string (Python `str.replace` replaces all occurrences, embedded here as
`pyReplaceStr`). -/
theorem c9_preamble_substitution (g : ExamGenerator) (pf content : String)
    (readFile : String → Option String) (version : Nat)
    (h1 : g.preamble_file = some pf) (h2 : readFile pf = some content) :
    generate_preamble g readFile version =
      pyReplaceStr content "%%VERSION%%" (toString version) := by
  simp [generate_preamble, h1, h2]

/-- Witness for C9: on a template containing the placeholder twice, both
occurrences are replaced with the version number. -/
theorem c9_witness :
    gPre.preamble_file = some "preamble.tex" ∧
    readPre "preamble.tex" = some "Exam %%VERSION%% of term\n%%VERSION%% end" ∧
    generate_preamble gPre readPre 7 =
      pyReplaceStr "Exam %%VERSION%% of term\n%%VERSION%% end" "%%VERSION%%"
        (toString 7) ∧
    generate_preamble gPre readPre 7 = "Exam 7 of term\n7 end" :=
  ⟨rfl, rfl,
    c9_preamble_substitution gPre "preamble.tex"
      "Exam %%VERSION%% of term\n%%VERSION%% end" readPre 7 rfl rfl,
    by decide⟩

/-- Counterexample to C5 as stated: this selections mapping contains the bank
name "missing", absent from the generator bank mapping, yet `generate_exam`
fails with a CapacityError - not a BankNotFoundError - because the earlier
entry exhausts the bank "b" first. -/
theorem c5_counterexample :
    List.lookup "missing" genC5.banks = none ∧
    generate_exam genC5 [("b", 2), ("missing", 1)] 1 (fun _ => none)
        (fun _ => []) (fun _ => []) =
      Except.error (ExamError.capacity ("Requested " ++ toString 2
        ++ " questions but bank only has " ++ toString 1)) ∧
    isBankNotFound (generate_exam genC5 [("b", 2), ("missing", 1)] 1
        (fun _ => none) (fun _ => []) (fun _ => [])) = false :=
  ⟨rfl, rfl, rfl⟩

/-- Claim C5 (amended): `generate_exam` walks the selections in order and the
first offending entry determines the error.  Provided every entry before
the offender names a present bank with a within-capacity count: an absent
bank name fails with BankNotFoundError, and a present bank with an
over-capacity count fails with the CapacityError of `sample_questions`,
propagated unchanged.  (As the counterexample shows, an unconditional rule
that an absent name implies BankNotFoundError is false: an earlier
over-capacity entry preempts it.) -/
theorem c5_first_failure_wins (g : ExamGenerator)
    (pre rest : List (String × Nat)) (nm : String) (cnt : Nat)
    (version : Nat) (readFile : String → Option String)
    (sels perms : Nat → List Nat)
    (hpre : ∀ p ∈ pre, ∃ b, List.lookup p.1 g.banks = some b ∧
      p.2 ≤ b.questions.length) :
    (List.lookup nm g.banks = none →
      generate_exam g (pre ++ (nm, cnt) :: rest) version readFile sels perms =
        Except.error (ExamError.bankNotFound
          ("Question bank \x27" ++ nm ++ "\x27 not found"))) ∧
    (∀ b, List.lookup nm g.banks = some b → b.questions.length < cnt →
      generate_exam g (pre ++ (nm, cnt) :: rest) version readFile sels perms =
        Except.error (ExamError.capacity ("Requested " ++ toString cnt
          ++ " questions but bank only has "
          ++ toString b.questions.length))) := by
  constructor
  · intro hnone
    exact generate_exam_of_sample_error g _ version readFile sels perms _
      (sample_all_absent g.banks pre rest nm cnt sels hpre hnone)
  · intro b hsome hgt
    exact generate_exam_of_sample_error g _ version readFile sels perms _
      (sample_all_capacity g.banks pre rest nm cnt sels b hpre hsome hgt)

/-- Witness for the amended C5: after a satisfiable first entry, an absent
bank name yields BankNotFoundError. -/
theorem c5_witness :
    (∀ p ∈ ([("b", 1)] : List (String × Nat)),
      ∃ b, List.lookup p.1 genC5.banks = some b ∧ p.2 ≤ b.questions.length) ∧
    List.lookup "missing" genC5.banks = none ∧
    generate_exam genC5 ([("b", 1)] ++ [("missing", 1)]) 1 (fun _ => none)
        (fun _ => [0]) (fun _ => [0, 1]) =
      Except.error (ExamError.bankNotFound
        ("Question bank \x27" ++ "missing" ++ "\x27 not found")) := by
  have hpre : ∀ p ∈ ([("b", 1)] : List (String × Nat)),
      ∃ b, List.lookup p.1 genC5.banks = some b ∧ p.2 ≤ b.questions.length := by
    intro p hp
    rcases List.mem_cons.mp hp with rfl | h2
    · exact ⟨bank1, rfl, by decide⟩
    · cases h2
  exact ⟨hpre, rfl,
    (c5_first_failure_wins genC5 [("b", 1)] [] "missing" 1 1 (fun _ => none)
      (fun _ => [0]) (fun _ => [0, 1]) hpre).1 rfl⟩

end ExamGen
